import Mathlib

/-!
# Verification of the cinemesis filtered-query builder and vote ledger

Shallow embedding of the Go sources:
* `internal/data/votes.go` — the vote ledger (`VoteReview` and its helpers),
  with the `review_votes` rows of one review modelled as an association list
  and the two aggregate counters carried alongside.
* `internal/data/filters.go` and `internal/filters/{pages,movies,reviews}.go`
  — the condition builder, sort resolver and query assemblers, with Go strings
  modelled as Lean `String` and `fmt.Sprintf("%d", ·)` as a decimal printer.

Machine integers (`int`, `int8`, `int32`, `int64`) are modelled as `Int`
(no arithmetic in these functions comes near an overflow boundary), and the
`panic` branch of the sort resolvers as `Option.none`.
-/

namespace Cinemesis

/-! ## Decimal printing (the `%d` verb of `fmt.Sprintf`) -/

/-- The decimal digit character for `n % 10`-style values. -/
def digitChar : Nat → Char
  | 0 => '0'
  | 1 => '1'
  | 2 => '2'
  | 3 => '3'
  | 4 => '4'
  | 5 => '5'
  | 6 => '6'
  | 7 => '7'
  | 8 => '8'
  | _ => '9'

/-- Fuel-driven decimal printer; `fuel > n` is always enough. The fuel keeps
the recursion structural so that concrete values reduce inside the kernel. -/
def natDigitsAux : Nat → Nat → List Char
  | 0, _ => []
  | fuel + 1, n =>
    if n < 10 then [digitChar n]
    else natDigitsAux fuel (n / 10) ++ [digitChar (n % 10)]

/-- Most-significant-first decimal digits of a natural number. -/
def natDigits (n : Nat) : List Char :=
  natDigitsAux (n + 1) n

theorem natDigitsAux_fuel (f1 : Nat) : ∀ (f2 n : Nat), n < f1 → n < f2 →
    natDigitsAux f1 n = natDigitsAux f2 n := by
  induction f1 with
  | zero => omega
  | succ f ih =>
    intro f2 n h1 h2
    cases f2 with
    | zero => omega
    | succ g =>
      simp only [natDigitsAux]
      split
      · rfl
      · rename_i h
        rw [ih g (n / 10) (by omega) (by omega)]

/-- The defining equation of `natDigits`, fuel eliminated. -/
theorem natDigits_eq (n : Nat) :
    natDigits n =
      if n < 10 then [digitChar n]
      else natDigits (n / 10) ++ [digitChar (n % 10)] := by
  conv_lhs => rw [natDigits, natDigitsAux]
  split
  · rfl
  · rename_i h
    rw [natDigitsAux_fuel n (n / 10 + 1) (n / 10) (by omega) (by omega)]
    rfl

/-- `fmt.Sprintf("%d", n)` for a non-negative counter value. -/
def natRepr (n : Nat) : String :=
  ⟨natDigits n⟩

/-- Read a digit string back as a number (parsing inverse of `natDigits`). -/
def digitsToNat (l : List Char) : Nat :=
  l.foldl (fun acc c => 10 * acc + (c.toNat - 48)) 0

theorem digitChar_isDigit (n : Nat) : (digitChar n).isDigit = true := by
  unfold digitChar
  split <;> decide

theorem digitChar_toNat (n : Nat) (h : n < 10) : (digitChar n).toNat = 48 + n := by
  interval_cases n <;> decide

theorem natDigits_ne_nil (n : Nat) : natDigits n ≠ [] := by
  rw [natDigits_eq]
  split
  · simp
  · simp

theorem mem_natDigits_isDigit (n : Nat) : ∀ c ∈ natDigits n, c.isDigit = true := by
  induction n using Nat.strong_induction_on with
  | _ n ih =>
    intro c hc
    rw [natDigits_eq] at hc
    split at hc
    · simp at hc
      subst hc
      exact digitChar_isDigit n
    · rename_i h
      rcases List.mem_append.mp hc with h1 | h1
      · exact ih (n / 10) (Nat.div_lt_self (by omega) (by omega)) c h1
      · simp at h1
        subst h1
        exact digitChar_isDigit (n % 10)

theorem digitsToNat_natDigits (n : Nat) : digitsToNat (natDigits n) = n := by
  induction n using Nat.strong_induction_on with
  | _ n ih =>
    rw [natDigits_eq]
    split
    · rename_i h
      simp [digitsToNat, digitChar_toNat n h]
    · rename_i h
      have ihd := ih (n / 10) (Nat.div_lt_self (by omega) (by omega))
      simp only [digitsToNat, List.foldl_append] at *
      rw [ihd]
      simp [digitChar_toNat (n % 10) (Nat.mod_lt n (by omega))]
      omega

/-! ## Placeholder extraction from query text

`phScan` walks a character list and records, in order of occurrence, every
positional placeholder `$<digits>` it finds. It is the reference reading of
how PostgreSQL locates placeholders in the query text the builders emit. -/

/-- Split a character list into its leading run of digits and the rest. -/
def spanDigits : List Char → List Char × List Char
  | [] => ([], [])
  | c :: rest =>
    if c.isDigit then ((c :: (spanDigits rest).1), (spanDigits rest).2)
    else ([], c :: rest)

theorem spanDigits_snd_length_le (l : List Char) : (spanDigits l).2.length ≤ l.length := by
  induction l with
  | nil => simp [spanDigits]
  | cons c rest ih =>
    simp only [spanDigits]
    split
    · simpa using Nat.le_succ_of_le ih
    · simp

/-- Does the list begin with a decimal digit? -/
def digitStart : List Char → Bool
  | [] => false
  | c :: _ => c.isDigit

theorem spanDigits_all_digits (t r : List Char) (ht : ∀ c ∈ t, c.isDigit = true)
    (hr : digitStart r = false) : spanDigits (t ++ r) = (t, r) := by
  induction t with
  | nil =>
    cases r with
    | nil => simp [spanDigits]
    | cons c rest =>
      simp only [digitStart] at hr
      simp [spanDigits, hr]
  | cons c t' ih =>
    have hc : c.isDigit = true := ht c (by simp)
    have ht' : ∀ x ∈ t', x.isDigit = true := fun x hx => ht x (by simp [hx])
    simp [spanDigits, hc, ih ht']

/-- Fuel-driven placeholder scanner; `fuel ≥ l.length` is always enough. -/
def phScanAux : Nat → List Char → List Nat
  | 0, _ => []
  | fuel + 1, l =>
    match l with
    | [] => []
    | c :: rest =>
      if c = '$' then
        if (spanDigits rest).1 = [] then phScanAux fuel rest
        else digitsToNat (spanDigits rest).1 :: phScanAux fuel (spanDigits rest).2
      else phScanAux fuel rest

/-- All `$<digits>` placeholders in a character list, in occurrence order. -/
def phScan (l : List Char) : List Nat :=
  phScanAux l.length l

theorem phScanAux_fuel (f1 : Nat) : ∀ (f2 : Nat) (l : List Char),
    l.length ≤ f1 → l.length ≤ f2 → phScanAux f1 l = phScanAux f2 l := by
  induction f1 with
  | zero =>
    intro f2 l h1 _
    have : l = [] := List.length_eq_zero.mp (Nat.le_zero.mp h1)
    subst this
    cases f2 <;> rfl
  | succ f ih =>
    intro f2 l h1 h2
    cases l with
    | nil => cases f2 <;> rfl
    | cons c rest =>
      cases f2 with
      | zero => simp at h2
      | succ g =>
        have hr : rest.length ≤ f := by simp at h1; omega
        have hg : rest.length ≤ g := by simp at h2; omega
        simp only [phScanAux]
        by_cases hc : c = '$'
        · simp only [if_pos hc]
          by_cases hd : (spanDigits rest).1 = []
          · simp only [if_pos hd]
            exact ih g rest hr hg
          · simp only [if_neg hd]
            rw [ih g (spanDigits rest).2
              (le_trans (spanDigits_snd_length_le rest) hr)
              (le_trans (spanDigits_snd_length_le rest) hg)]
        · simp only [if_neg hc]
          exact ih g rest hr hg

theorem phScan_nil : phScan [] = [] := rfl

/-- The defining equation of `phScan` on a cons cell, fuel eliminated. -/
theorem phScan_cons (c : Char) (rest : List Char) :
    phScan (c :: rest) =
      if c = '$' then
        if (spanDigits rest).1 = [] then phScan rest
        else digitsToNat (spanDigits rest).1 :: phScan (spanDigits rest).2
      else phScan rest := by
  unfold phScan
  simp only [List.length_cons, phScanAux]
  by_cases hc : c = '$'
  · simp only [if_pos hc]
    by_cases hd : (spanDigits rest).1 = []
    · simp [if_pos hd]
    · simp only [if_neg hd]
      rw [phScanAux_fuel rest.length (spanDigits rest).2.length (spanDigits rest).2
        (spanDigits_snd_length_le rest) le_rfl]
  · simp [if_neg hc]

theorem phScan_cons_ne (c : Char) (rest : List Char) (h : ¬ c = '$') :
    phScan (c :: rest) = phScan rest := by
  rw [phScan_cons]
  simp [h]

theorem phScan_append_noDollar (l₁ l₂ : List Char) (h : '$' ∉ l₁) :
    phScan (l₁ ++ l₂) = phScan l₂ := by
  induction l₁ with
  | nil => simp
  | cons c rest ih =>
    have hc : ¬ c = '$' := fun hc => h (by simp [hc])
    have hr : '$' ∉ rest := fun hr => h (by simp [hr])
    rw [List.cons_append, phScan_cons_ne c _ hc]
    exact ih hr

theorem phScan_dollar (t r : List Char) (ht : ∀ c ∈ t, c.isDigit = true)
    (htne : t ≠ []) (hr : digitStart r = false) :
    phScan ('$' :: (t ++ r)) = digitsToNat t :: phScan r := by
  rw [phScan_cons]
  simp [spanDigits_all_digits t r ht hr, htne]

/-! ## The vote ledger (`internal/data/votes.go`)

The rows of `review_votes` belonging to one review are an association list
`user_id ↦ vote_type`; the `upvotes`/`downvotes` columns of the `reviews`
row ride along in the same state record. Each SQL statement of the Go file
becomes one list operation; the whole `VoteReview` transaction becomes one
state-to-state function (the transaction always commits in the model — the
claims under study are about its committed effect). -/

/-- `type VoteType int8` with values `NoneVote = 0`, `Upvote = 1`,
`Downvote = -1`. -/
abbrev VoteType := Int

def NoneVote : VoteType := 0

def Upvote : VoteType := 1

def Downvote : VoteType := -1

/-- The `review_votes` rows of one review plus that review's two counters. -/
structure ReviewState where
  rows : List (Int × VoteType)
  upvotes : Int
  downvotes : Int
deriving DecidableEq

/-- `getCurrentVote`: `SELECT vote_type FROM review_votes WHERE review_id
= $1 AND user_id = $2`, with `sql.ErrNoRows` mapped to `0`. -/
def getCurrentVote (rows : List (Int × VoteType)) (userID : Int) : VoteType :=
  match rows.find? (fun r => r.1 == userID) with
  | some r => r.2
  | none => 0

/-- `deleteVote`: `DELETE FROM review_votes WHERE review_id = $1 AND
user_id = $2`. -/
def deleteVote (rows : List (Int × VoteType)) (userID : Int) :
    List (Int × VoteType) :=
  rows.filter (fun r => !(r.1 == userID))

/-- The `INSERT INTO review_votes` statement of `updateVote`. -/
def insertVoteRow (rows : List (Int × VoteType)) (userID : Int)
    (newVote : VoteType) : List (Int × VoteType) :=
  rows ++ [(userID, newVote)]

/-- The `UPDATE review_votes SET vote_type = $3` statement of `updateVote`. -/
def updateVoteRow (rows : List (Int × VoteType)) (userID : Int)
    (newVote : VoteType) : List (Int × VoteType) :=
  rows.map (fun r => if r.1 == userID then (r.1, newVote) else r)

/-- `updateVote`: delete on `newVote == 0`, insert when no current vote,
otherwise update in place. -/
def updateVote (rows : List (Int × VoteType)) (userID : Int)
    (currentVote newVote : VoteType) : List (Int × VoteType) :=
  if newVote = 0 then deleteVote rows userID
  else if currentVote = NoneVote then insertVoteRow rows userID newVote
  else updateVoteRow rows userID newVote

/-- `calculateDelta`: `-1` if the old vote hits the target counter, `+1` if
the new vote does. -/
def calculateDelta (oldVote newVote targetVote : VoteType) : Int :=
  (if oldVote = targetVote then (0 : Int) - 1 else 0) +
    (if newVote = targetVote then 1 else 0)

/-- `updateVoteCounts`: `UPDATE reviews SET upvotes = GREATEST(0, upvotes +
$2), downvotes = GREATEST(0, downvotes + $3) WHERE id = $1`. -/
def updateVoteCounts (s : ReviewState) (oldVote newVote : VoteType) :
    ReviewState :=
  { s with
    upvotes := max 0 (s.upvotes + calculateDelta oldVote newVote Upvote),
    downvotes := max 0 (s.downvotes + calculateDelta oldVote newVote Downvote) }

/-- `VoteReview`: read the current vote; if it equals the cast direction,
delete the row, otherwise run `updateVote`; then apply the counter deltas —
note the second argument passed to `updateVoteCounts` is `voteType` on every
path, including the delete path. -/
def VoteReview (s : ReviewState) (userID : Int) (voteType : VoteType) :
    ReviewState :=
  let currentVote := getCurrentVote s.rows userID
  let rows' :=
    if currentVote = voteType then deleteVote s.rows userID
    else updateVote s.rows userID currentVote voteType
  updateVoteCounts { s with rows := rows' } currentVote voteType

/-- A sequence of `VoteReview` calls, each by a `(user_id, vote_type)` pair. -/
def voteOps (s : ReviewState) (ops : List (Int × VoteType)) : ReviewState :=
  ops.foldl (fun st op => VoteReview st op.1 op.2) s

/-- The vote-type guard of the `voteForReview` HTTP handler
(`cmd/api`): `if voteType > 1 || voteType < -1 { badRequest }`. -/
def handlerAcceptsVote (voteType : VoteType) : Bool :=
  !(voteType > 1 || voteType < -1)

/-- Number of vote rows of the review currently in state `v`. -/
def countRows (s : ReviewState) (v : VoteType) : Nat :=
  (s.rows.filter (fun r => r.2 == v)).length

/-! ### Claims about the vote ledger -/

/-- Claim C1. The claim states that casting the same direction twice from
state `None` nets zero on both counters. On the code it fails: starting from
the empty review state, user 1 casting `Upvote` twice leaves the pair in
state `None` (the row is deleted) but the upvotes counter at `1`, because the
delete path hands `updateVoteCounts` the pair `(currentVote, voteType)` with
both equal to the cast direction, whose delta is `0`, not `-1`. This theorem
evaluates the embedded code at that failing input. -/
theorem voteReview_double_upvote_bug :
    getCurrentVote (VoteReview (VoteReview ⟨[], 0, 0⟩ 1 Upvote) 1 Upvote).rows 1
        = NoneVote ∧
      (VoteReview (VoteReview ⟨[], 0, 0⟩ 1 Upvote) 1 Upvote).upvotes = 1 ∧
      (VoteReview (VoteReview ⟨[], 0, 0⟩ 1 Upvote) 1 Upvote).downvotes = 0 := by
  decide

/-- Claim C2. The claim states the invariant that the upvotes counter always
equals the number of vote rows in positive state. It fails on the code after
the two-cast sequence of C1: the state reached from a consistent initial
state (empty rows, zero counters) by two `Upvote` casts of the same user has
upvotes counter `1` but zero positive vote rows. -/
theorem voteReview_counter_invariant_bug :
    (VoteReview (VoteReview ⟨[], 0, 0⟩ 1 Upvote) 1 Upvote).upvotes = 1 ∧
      countRows (VoteReview (VoteReview ⟨[], 0, 0⟩ 1 Upvote) 1 Upvote) Upvote
        = 0 := by
  decide

/-- Claim C5. For all vote states `O` and `N` and every target counter `C`,
`calculateDelta O N C = (1 if N == C else 0) - (1 if O == C else 0)` — proved
for every target value, which covers in particular `C ∈ {Upvote, Downvote}`
as the claim states. -/
theorem calculateDelta_spec (O N C : VoteType) :
    calculateDelta O N C =
      (if N = C then 1 else 0) - (if O = C then 1 else 0) := by
  unfold calculateDelta
  split <;> split <;> omega

theorem voteReview_counters_nonneg (s : ReviewState) (u v : Int) :
    0 ≤ (VoteReview s u v).upvotes ∧ 0 ≤ (VoteReview s u v).downvotes := by
  unfold VoteReview updateVoteCounts
  exact ⟨le_max_left 0 _, le_max_left 0 _⟩

/-- Claim C9. No sequence of `VoteReview` operations starting from
non-negative counters drives either counter below zero: `updateVoteCounts`
floors each counter at zero (`GREATEST(0, ·)`). -/
theorem voteOps_counters_nonneg (s : ReviewState) (ops : List (Int × VoteType))
    (hu : 0 ≤ s.upvotes) (hd : 0 ≤ s.downvotes) :
    0 ≤ (voteOps s ops).upvotes ∧ 0 ≤ (voteOps s ops).downvotes := by
  induction ops generalizing s with
  | nil => exact ⟨hu, hd⟩
  | cons op rest ih =>
    have h := voteReview_counters_nonneg s op.1 op.2
    exact ih (VoteReview s op.1 op.2) h.1 h.2

/-- Witness for C9 at a concrete input: one upvote from the empty state. -/
theorem voteOps_counters_nonneg_witness :
    0 ≤ (voteOps ⟨[], 0, 0⟩ [(1, Upvote)]).upvotes ∧
      0 ≤ (voteOps ⟨[], 0, 0⟩ [(1, Upvote)]).downvotes :=
  voteOps_counters_nonneg ⟨[], 0, 0⟩ [(1, Upvote)] (by decide) (by decide)

/-- Claim C10. `VoteReview` with `voteType = NoneVote` — accepted by the HTTP
vote handler, whose guard only rejects values outside `[-1, 1]` — acts as an
explicit retraction: when the current vote is `Upvote` (resp. `Downvote`) the
row is deleted and that counter decremented by one; when no vote row exists
for the voter, rows and counters are left unchanged. -/
theorem voteReview_noneVote_spec (s : ReviewState) (u : Int)
    (hu : 0 ≤ s.upvotes) (hd : 0 ≤ s.downvotes) :
    handlerAcceptsVote NoneVote = true ∧
      (getCurrentVote s.rows u = Upvote → 1 ≤ s.upvotes →
        VoteReview s u NoneVote =
          ⟨deleteVote s.rows u, s.upvotes - 1, s.downvotes⟩) ∧
      (getCurrentVote s.rows u = Downvote → 1 ≤ s.downvotes →
        VoteReview s u NoneVote =
          ⟨deleteVote s.rows u, s.upvotes, s.downvotes - 1⟩) ∧
      ((∀ r ∈ s.rows, r.1 ≠ u) → VoteReview s u NoneVote = s) := by
  refine ⟨by decide, ?_, ?_, ?_⟩
  · intro hcur hup
    unfold VoteReview
    rw [hcur]
    unfold Upvote NoneVote updateVote updateVoteCounts calculateDelta
    simp only [Upvote, Downvote, NoneVote]
    norm_num
    constructor
    · omega
    · omega
  · intro hcur hdown
    unfold VoteReview
    rw [hcur]
    unfold Downvote NoneVote updateVote updateVoteCounts calculateDelta
    simp only [Upvote, Downvote, NoneVote]
    norm_num
    constructor
    · omega
    · omega
  · intro hrow
    have hfind : s.rows.find? (fun r => r.1 == u) = none := by
      apply List.find?_eq_none.mpr
      intro r hr
      simp [hrow r hr]
    have hcur : getCurrentVote s.rows u = NoneVote := by
      simp [getCurrentVote, hfind, NoneVote]
    have hdel : deleteVote s.rows u = s.rows := by
      apply List.filter_eq_self.mpr
      intro r hr
      simp [hrow r hr]
    unfold VoteReview
    rw [hcur]
    unfold updateVoteCounts calculateDelta
    simp only [NoneVote, Upvote, Downvote, if_pos rfl, hdel]
    norm_num
    rw [sup_eq_right.mpr hu, sup_eq_right.mpr hd]

/-- Witness for C10: retracting an existing upvote at a concrete state. -/
theorem voteReview_noneVote_spec_witness :
    VoteReview ⟨[(7, Upvote)], 1, 0⟩ 7 NoneVote = ⟨[], 0, 0⟩ := by
  have h :=
    (voteReview_noneVote_spec ⟨[(7, Upvote)], 1, 0⟩ 7 (by decide)
        (by decide)).2.1 (by decide) (by decide)
  rw [h]
  decide

/-! ## Go string helpers shared by the filter packages -/

/-- Go `strings.HasPrefix(s, p)`. -/
def goHasPrefix (s p : String) : Bool :=
  p.data.isPrefixOf s.data

/-- Go `strings.TrimPrefix(s, p)`. -/
def goTrimPrefix (s p : String) : String :=
  if goHasPrefix s p then ⟨s.data.drop p.data.length⟩ else s

/-- Go `strings.Join(elems, " AND ")` as used by both query assemblers. -/
def joinAnd : List String → String
  | [] => ""
  | [s] => s
  | s :: rest => s ++ " AND " ++ joinAnd rest

/-- One entry of the builders' `args []any` slice. `time` carries the model
of a `time.Time` value (see `GoTime`). -/
inductive Arg where
  | str (s : String)
  | int (n : Int)
  | intArray (a : List Int)
  | time (t : Int)
deriving DecidableEq

/-- Model of Go `time.Time` for the date-range filter: only the `IsZero`
distinction and the value's identity matter to the builder, so a `time.Time`
is collapsed to its epoch offset, with `0` as the zero value. -/
abbrev GoTime := Int

/-- The `fmt.Sprintf` template of `AddTitleFilter`, instantiated at
placeholder index `n` (used twice). -/
def titleFragment (n : Nat) : String :=
  "(to_tsvector('simple', m.title) @@ plainto_tsquery('simple', $" ++
    natRepr n ++ ") OR $" ++ natRepr n ++ " = '')"

/-- The `fmt.Sprintf` template of `AddGenreFilter`, instantiated at the
array placeholder `a` and the count placeholder `b`. -/
def genreFragment (a b : Nat) : String :=
  "\n\t\tm.id IN (\n\t\t\tSELECT movie_id FROM movies_genres\n\t\t\tWHERE genre_id = ANY($" ++
    natRepr a ++
    ")\n\t\t\tGROUP BY movie_id\n\t\t\tHAVING COUNT(DISTINCT genre_id) = $" ++
    natRepr b ++ "\n\t\t)"

/-! ## The `internal/filters` package (`pages.go`, `movies.go`, `reviews.go`) -/

namespace FiltersPkg

/-- `PageFilters` (`internal/filters/pages.go`). -/
structure PageFilters where
  Page : Int
  PageSize : Int
  Sort' : String
  SortSafelist : List String
deriving DecidableEq

/-- `sortColumn` of `pages.go`; the `panic("unsafe sort parameter")` branch
is modelled as `none`. -/
def sortColumn (p : PageFilters) : Option String :=
  if p.Sort' ∈ p.SortSafelist then some (goTrimPrefix p.Sort' "-") else none

/-- `sortDirection` of `pages.go`. -/
def sortDirection (p : PageFilters) : String :=
  if goHasPrefix p.Sort' "-" then "DESC" else "ASC"

/-- `limit()` of `pages.go`. -/
def limit (p : PageFilters) : Int :=
  p.PageSize

/-- `offset()` of `pages.go`. -/
def offset (p : PageFilters) : Int :=
  (p.Page - 1) * p.PageSize

/-- `QueryBuilder` of `pages.go`. -/
structure QueryBuilder where
  conditions : List String
  args : List Arg
  argCount : Nat
deriving DecidableEq

/-- `NewQueryBuilder` of `pages.go`. -/
def NewQueryBuilder : QueryBuilder :=
  ⟨[], [], 0⟩

/-- `MovieFilters` (`internal/filters/movies.go`); `int32` fields as `Int`. -/
structure MovieFilters extends PageFilters where
  Title : String
  Genres : List String
  MinYear : Int
  MaxYear : Int
  MinRuntime : Int
  MaxRuntime : Int
deriving DecidableEq

/-- `AddTitleFilter` of `movies.go`: unconditionally appends the full-text
fragment (with its `OR $n = ''` escape hatch) and the title argument. -/
def AddTitleFilter (qb : QueryBuilder) (title : String) : QueryBuilder :=
  let n := qb.argCount + 1
  { conditions := qb.conditions ++ [titleFragment n],
    args := qb.args ++ [Arg.str title],
    argCount := n }

/-- `AddGenreFilter` of `movies.go`: no-op on the empty set, otherwise one
count-matching subquery fragment binding the array and its length. -/
def AddGenreFilter (qb : QueryBuilder) (genreIDs : List Int) : QueryBuilder :=
  if genreIDs.length = 0 then qb
  else
    let arrayArg := qb.argCount + 1
    let countArg := qb.argCount + 2
    { conditions := qb.conditions ++ [genreFragment arrayArg countArg],
      args := qb.args ++ [Arg.intArray genreIDs, Arg.int genreIDs.length],
      argCount := countArg }

/-- `AddYearRangeFilter` of `movies.go`. -/
def AddYearRangeFilter (qb : QueryBuilder) (minYear maxYear : Int) :
    QueryBuilder :=
  let qb1 :=
    if minYear > 0 then
      { conditions := qb.conditions ++ ["m.year >= $" ++ natRepr (qb.argCount + 1)],
        args := qb.args ++ [Arg.int minYear],
        argCount := qb.argCount + 1 }
    else qb
  if maxYear > 0 then
    { conditions := qb1.conditions ++ ["m.year <= $" ++ natRepr (qb1.argCount + 1)],
      args := qb1.args ++ [Arg.int maxYear],
      argCount := qb1.argCount + 1 }
  else qb1

/-- `AddRuntimeRangeFilter` of `movies.go`. -/
def AddRuntimeRangeFilter (qb : QueryBuilder) (minRuntime maxRuntime : Int) :
    QueryBuilder :=
  let qb1 :=
    if minRuntime > 0 then
      { conditions := qb.conditions ++ ["m.runtime >= $" ++ natRepr (qb.argCount + 1)],
        args := qb.args ++ [Arg.int minRuntime],
        argCount := qb.argCount + 1 }
    else qb
  if maxRuntime > 0 then
    { conditions := qb1.conditions ++ ["m.runtime <= $" ++ natRepr (qb1.argCount + 1)],
      args := qb1.args ++ [Arg.int maxRuntime],
      argCount := qb1.argCount + 1 }
  else qb1

/-- `AddRatingFilter` of `reviews.go` (`uint8` bounds as `Int`). -/
def AddRatingFilter (qb : QueryBuilder) (minRating maxRating : Int) :
    QueryBuilder :=
  let qb1 :=
    if minRating > 0 then
      { conditions := qb.conditions ++ ["r.rating >= $" ++ natRepr (qb.argCount + 1)],
        args := qb.args ++ [Arg.int minRating],
        argCount := qb.argCount + 1 }
    else qb
  if maxRating > 0 ∧ maxRating ≤ 10 then
    { conditions := qb1.conditions ++ ["r.rating <= $" ++ natRepr (qb1.argCount + 1)],
      args := qb1.args ++ [Arg.int maxRating],
      argCount := qb1.argCount + 1 }
  else qb1

/-- `AddUpvotesFilter` of `reviews.go`. -/
def AddUpvotesFilter (qb : QueryBuilder) (minUpvotes : Int) : QueryBuilder :=
  if minUpvotes > 0 then
    { conditions := qb.conditions ++ ["r.upvotes >= $" ++ natRepr (qb.argCount + 1)],
      args := qb.args ++ [Arg.int minUpvotes],
      argCount := qb.argCount + 1 }
  else qb

/-- `AddDateRangeFilter` of `reviews.go`: guarded by `!from.IsZero()` and
`!to.IsZero()`. -/
def AddDateRangeFilter (qb : QueryBuilder) (from₀ to₀ : GoTime) : QueryBuilder :=
  let qb1 :=
    if ¬ from₀ = 0 then
      { conditions := qb.conditions ++ ["r.created_at >= $" ++ natRepr (qb.argCount + 1)],
        args := qb.args ++ [Arg.time from₀],
        argCount := qb.argCount + 1 }
    else qb
  if ¬ to₀ = 0 then
    { conditions := qb1.conditions ++ ["r.created_at <= $" ++ natRepr (qb1.argCount + 1)],
      args := qb1.args ++ [Arg.time to₀],
      argCount := qb1.argCount + 1 }
  else qb1

/-- `AddUserFilter` of `reviews.go`. -/
def AddUserFilter (qb : QueryBuilder) (userID : Int) : QueryBuilder :=
  if userID > 0 then
    { conditions := qb.conditions ++ ["r.user_id = $" ++ natRepr (qb.argCount + 1)],
      args := qb.args ++ [Arg.int userID],
      argCount := qb.argCount + 1 }
  else qb

/-- `AddMovieFilter` of `reviews.go`. -/
def AddMovieFilter (qb : QueryBuilder) (movieID : Int) : QueryBuilder :=
  if movieID > 0 then
    { conditions := qb.conditions ++ ["r.movie_id = $" ++ natRepr (qb.argCount + 1)],
      args := qb.args ++ [Arg.int movieID],
      argCount := qb.argCount + 1 }
  else qb

/-- `WithTitle` of `movies.go`: skips the empty title. -/
def WithTitle (qb : QueryBuilder) (title : String) : QueryBuilder :=
  if ¬ title = "" then AddTitleFilter qb title else qb

/-- `WithGenres` of `movies.go`: skips the empty id list. -/
def WithGenres (qb : QueryBuilder) (genreIDs : List Int) : QueryBuilder :=
  if genreIDs.length > 0 then AddGenreFilter qb genreIDs else qb

/-- The `columnMap` literal of `BuildMovieQuery`. -/
def movieColumnMap (s : String) : Option String :=
  if s = "id" then some "m.id"
  else if s = "title" then some "m.title"
  else if s = "year" then some "m.year"
  else if s = "runtime" then some "m.runtime"
  else none

/-- `BuildMovieQuery` of `movies.go`: prefixes `WHERE ` only when at least
one condition exists, resolves the sort column through `columnMap` with
default `m.id`, and appends the `$argCount+1`/`$argCount+2` placeholders
bound to limit and offset. `none` models the propagated `sortColumn` panic. -/
def BuildMovieQuery (qb : QueryBuilder) (f : MovieFilters) :
    Option (String × List Arg) :=
  let whereClause :=
    if qb.conditions.length > 0 then "WHERE " ++ joinAnd qb.conditions else ""
  match sortColumn f.toPageFilters with
  | none => none
  | some sc =>
    let actualColumn := (movieColumnMap sc).getD "m.id"
    let query :=
      "\n\t\tSELECT count(*) OVER(), m.id, m.created_at, m.updated_at, m.title, m.year, m.runtime, m.version\n\t\tFROM movies m\n\t\t" ++
        whereClause ++ "\n\t\tORDER BY " ++ actualColumn ++ " " ++
        sortDirection f.toPageFilters ++ ", m.id ASC\n\t\tLIMIT $" ++
        natRepr (qb.argCount + 1) ++ " OFFSET $" ++ natRepr (qb.argCount + 2)
    some (query, qb.args ++
      [Arg.int (limit f.toPageFilters), Arg.int (offset f.toPageFilters)])

end FiltersPkg

/-! ## The `internal/data` package (`filters.go`) -/

namespace DataPkg

/-- `Filters` (`internal/data/filters.go`). -/
structure Filters where
  Page : Int
  PageSize : Int
  Sort' : String
  SortSafelist : List String
deriving DecidableEq

/-- `sortColumn` of `data/filters.go`; `none` models the panic branch. -/
def sortColumn (f : Filters) : Option String :=
  if f.Sort' ∈ f.SortSafelist then some (goTrimPrefix f.Sort' "-") else none

/-- `sortDirection` of `data/filters.go`. -/
def sortDirection (f : Filters) : String :=
  if goHasPrefix f.Sort' "-" then "DESC" else "ASC"

/-- `limit()` of `data/filters.go`. -/
def limit (f : Filters) : Int :=
  f.PageSize

/-- `offset()` of `data/filters.go`. -/
def offset (f : Filters) : Int :=
  (f.Page - 1) * f.PageSize

/-- `QueryBuilder` of `data/filters.go`. -/
structure QueryBuilder where
  conditions : List String
  args : List Arg
  argCount : Nat
deriving DecidableEq

/-- `NewQueryBuilder` of `data/filters.go`. -/
def NewQueryBuilder : QueryBuilder :=
  ⟨[], [], 0⟩

/-- `AddTitleFilter` of `data/filters.go` (same text as the filters-package
version). -/
def AddTitleFilter (qb : QueryBuilder) (title : String) : QueryBuilder :=
  let n := qb.argCount + 1
  { conditions := qb.conditions ++ [titleFragment n],
    args := qb.args ++ [Arg.str title],
    argCount := n }

/-- `AddGenreFilter` of `data/filters.go`. -/
def AddGenreFilter (qb : QueryBuilder) (genreIDs : List Int) : QueryBuilder :=
  if genreIDs.length = 0 then qb
  else
    let arrayArg := qb.argCount + 1
    let countArg := qb.argCount + 2
    { conditions := qb.conditions ++ [genreFragment arrayArg countArg],
      args := qb.args ++ [Arg.intArray genreIDs, Arg.int genreIDs.length],
      argCount := countArg }

/-- `Build` of `data/filters.go`: interpolates the joined conditions into a
fixed `WHERE %s` slot — the `WHERE` keyword is emitted even when zero
conditions were accumulated. `none` models the `sortColumn` panic. -/
def Build (qb : QueryBuilder) (f : Filters) : Option (String × List Arg) :=
  let whereClause := joinAnd qb.conditions
  match sortColumn f with
  | none => none
  | some sc =>
    let query :=
      "\n\t\tSELECT count(*) OVER(), m.id, m.created_at, m.updated_at, m.title, m.year, m.runtime, m.version\n\t\tFROM movies m\n\t\tWHERE " ++
        whereClause ++ "\n\t\tORDER BY " ++ sc ++ " " ++ sortDirection f ++
        ", m.id ASC\n\t\tLIMIT $" ++ natRepr (qb.argCount + 1) ++
        " OFFSET $" ++ natRepr (qb.argCount + 2)
    some (query, qb.args ++ [Arg.int (limit f), Arg.int (offset f)])

end DataPkg

/-! ### Claims about the sort resolver and the condition builders -/

/-- Claim C8. For every filter whose sort key is a member of its safelist,
`sortColumn` does not panic (the model returns `some`, never `none`) and
yields the key with a leading `-` removed, and `sortDirection` is `DESC`
iff the key begins with `-`, else `ASC` — proved for the resolver of the
`internal/filters` package and the one of the `internal/data` package
alike. -/
theorem sortResolver_spec (p : FiltersPkg.PageFilters) (f : DataPkg.Filters)
    (hp : p.Sort' ∈ p.SortSafelist) (hf : f.Sort' ∈ f.SortSafelist) :
    FiltersPkg.sortColumn p = some (goTrimPrefix p.Sort' "-") ∧
      (FiltersPkg.sortDirection p = "DESC" ↔ goHasPrefix p.Sort' "-" = true) ∧
      (goHasPrefix p.Sort' "-" = false → FiltersPkg.sortDirection p = "ASC") ∧
      DataPkg.sortColumn f = some (goTrimPrefix f.Sort' "-") ∧
      (DataPkg.sortDirection f = "DESC" ↔ goHasPrefix f.Sort' "-" = true) ∧
      (goHasPrefix f.Sort' "-" = false → DataPkg.sortDirection f = "ASC") := by
  refine ⟨by simp [FiltersPkg.sortColumn, hp], ?_, ?_,
    by simp [DataPkg.sortColumn, hf], ?_, ?_⟩
  · unfold FiltersPkg.sortDirection
    split <;> rename_i h <;> simp [h]
  · intro h
    simp [FiltersPkg.sortDirection, h]
  · unfold DataPkg.sortDirection
    split <;> rename_i h <;> simp [h]
  · intro h
    simp [DataPkg.sortDirection, h]

/-- Witness for C8 at concrete safelisted keys, one descending and one
ascending. -/
theorem sortResolver_spec_witness :
    FiltersPkg.sortColumn ⟨1, 20, "-year", ["-year"]⟩ = some "year" ∧
      FiltersPkg.sortDirection ⟨1, 20, "-year", ["-year"]⟩ = "DESC" ∧
      DataPkg.sortColumn ⟨1, 20, "id", ["id"]⟩ = some "id" ∧
      DataPkg.sortDirection ⟨1, 20, "id", ["id"]⟩ = "ASC" := by
  have h := sortResolver_spec ⟨1, 20, "-year", ["-year"]⟩ ⟨1, 20, "id", ["id"]⟩
    (by decide) (by decide)
  refine ⟨?_, ?_, ?_, ?_⟩
  · rw [h.1]
    decide
  · exact h.2.1.mpr (by decide)
  · rw [h.2.2.2.1]
    decide
  · exact h.2.2.2.2.2 (by decide)

/-- Counterexample to claim C4 as stated: `AddTitleFilter` called with the
empty title is not a no-op — it appends a fragment and an argument and
advances the placeholder counter. -/
theorem addTitleFilter_empty_changes_builder :
    ¬ FiltersPkg.AddTitleFilter FiltersPkg.NewQueryBuilder "" =
      FiltersPkg.NewQueryBuilder := by
  decide

/-- Claim C4 as amended. Every `add_*` operation except the title filter is
a no-op on an absent/zero value (empty genre set, zero range bounds, zero
rating bounds, zero minimum upvotes, zero-value dates, zero user/movie id),
and the `WithTitle`/`WithGenres` wrappers skip empty values; `AddTitleFilter`
itself always appends its fragment, argument and counter increment — for the
empty title the appended fragment carries the `OR $n = ''` disjunct, which an
empty bound title satisfies, so it constrains nothing. -/
theorem addFilters_zero_noop (qb : FiltersPkg.QueryBuilder)
    (dqb : DataPkg.QueryBuilder) :
    FiltersPkg.AddGenreFilter qb [] = qb ∧
      FiltersPkg.AddYearRangeFilter qb 0 0 = qb ∧
      FiltersPkg.AddRuntimeRangeFilter qb 0 0 = qb ∧
      FiltersPkg.AddRatingFilter qb 0 0 = qb ∧
      FiltersPkg.AddUpvotesFilter qb 0 = qb ∧
      FiltersPkg.AddDateRangeFilter qb 0 0 = qb ∧
      FiltersPkg.AddUserFilter qb 0 = qb ∧
      FiltersPkg.AddMovieFilter qb 0 = qb ∧
      FiltersPkg.WithTitle qb "" = qb ∧
      FiltersPkg.WithGenres qb [] = qb ∧
      DataPkg.AddGenreFilter dqb [] = dqb ∧
      FiltersPkg.AddTitleFilter qb "" =
        ⟨qb.conditions ++ [titleFragment (qb.argCount + 1)],
        qb.args ++ [Arg.str ""], qb.argCount + 1⟩ := by
  refine ⟨rfl, ?_, ?_, ?_, ?_, ?_, ?_, ?_, rfl, rfl, rfl, rfl⟩
  · simp [FiltersPkg.AddYearRangeFilter]
  · simp [FiltersPkg.AddRuntimeRangeFilter]
  · simp [FiltersPkg.AddRatingFilter]
  · simp [FiltersPkg.AddUpvotesFilter]
  · simp [FiltersPkg.AddDateRangeFilter]
  · simp [FiltersPkg.AddUserFilter]
  · simp [FiltersPkg.AddMovieFilter]

/-! ### Claim C3: presence or absence of the WHERE clause -/

theorem not_mem_natRepr_of_not_digit (c : Char) (n : Nat)
    (h : c.isDigit = false) : c ∉ (natRepr n).data := by
  intro hc
  have := mem_natDigits_isDigit n c hc
  rw [h] at this
  exact Bool.false_ne_true this

theorem not_W_movieColumn (sc : String) :
    'W' ∉ ((FiltersPkg.movieColumnMap sc).getD "m.id").data := by
  unfold FiltersPkg.movieColumnMap
  split_ifs <;> decide

theorem not_W_sortDirection (p : FiltersPkg.PageFilters) :
    'W' ∉ (FiltersPkg.sortDirection p).data := by
  unfold FiltersPkg.sortDirection
  split <;> decide

set_option maxRecDepth 8192 in
/-- Counterexample to claim C3 as stated: the `Build` of the data package
(one of the two assemblers the claim is about) interpolates the joined
conditions into a fixed `WHERE %s` slot, so even a builder holding zero
condition fragments produces query text containing `WHERE`. -/
theorem build_empty_contains_WHERE :
    DataPkg.NewQueryBuilder.conditions = [] ∧
      (DataPkg.Build DataPkg.NewQueryBuilder ⟨1, 20, "id", ["id"]⟩).isSome = true ∧
      "WHERE".data <:+:
        ((DataPkg.Build DataPkg.NewQueryBuilder ⟨1, 20, "id", ["id"]⟩).getD
          ("", [])).1.data := by
  refine ⟨rfl, rfl, ?_⟩
  decide

/-- Claim C3 as amended. For the movie query assembler of the
`internal/filters` package, a builder holding zero condition fragments
produces query text containing no `WHERE` clause at all; the generic
assembler of the data package does not have this property (see the
counterexample), since it always emits the `WHERE` keyword. -/
theorem buildMovieQuery_no_WHERE (qb : FiltersPkg.QueryBuilder)
    (f : FiltersPkg.MovieFilters) (q : String) (args : List Arg)
    (hc : qb.conditions = [])
    (hq : FiltersPkg.BuildMovieQuery qb f = some (q, args)) :
    ¬ "WHERE".data <:+: q.data := by
  intro hinf
  have hW : 'W' ∈ q.data := hinf.sublist.subset (by decide)
  rw [FiltersPkg.BuildMovieQuery, hc] at hq
  rcases ho : FiltersPkg.sortColumn f.toPageFilters with _ | sc
  · rw [ho] at hq
    simp at hq
  · rw [ho] at hq
    simp at hq
    rcases hq with ⟨rfl, rfl⟩
    simp only [String.data_append, List.mem_append, or_assoc] at hW
    rcases hW with h | h | h | h | h | h | h | h
    · exact absurd h (by decide)
    · exact absurd h (not_W_movieColumn sc)
    · exact absurd h (by decide)
    · exact absurd h (not_W_sortDirection f.toPageFilters)
    · exact absurd h (by decide)
    · exact absurd h (not_mem_natRepr_of_not_digit 'W' _ (by decide))
    · exact absurd h (by decide)
    · exact absurd h (not_mem_natRepr_of_not_digit 'W' _ (by decide))

set_option maxRecDepth 8192 in
/-- Witness for the amended C3: a fresh movie builder with valid default
filters produces query text with no `WHERE` in it. -/
theorem buildMovieQuery_no_WHERE_witness :
    ¬ "WHERE".data <:+:
      ((FiltersPkg.BuildMovieQuery FiltersPkg.NewQueryBuilder
        ⟨⟨1, 20, "id", ["id"]⟩, "", [], 0, 0, 0, 0⟩).getD ("", [])).1.data :=
  buildMovieQuery_no_WHERE FiltersPkg.NewQueryBuilder
    ⟨⟨1, 20, "id", ["id"]⟩, "", [], 0, 0, 0, 0⟩
    ((FiltersPkg.BuildMovieQuery FiltersPkg.NewQueryBuilder
      ⟨⟨1, 20, "id", ["id"]⟩, "", [], 0, 0, 0, 0⟩).getD ("", [])).1
    ((FiltersPkg.BuildMovieQuery FiltersPkg.NewQueryBuilder
      ⟨⟨1, 20, "id", ["id"]⟩, "", [], 0, 0, 0, 0⟩).getD ("", [])).2
    rfl (by rfl)

/-! ### Claim C6: the genre filter is set containment -/

/-- The genre ids of the `movies_genres` rows of movie `m` that fall in the
requested set `S`, deduplicated — the reading of the emitted subquery
`SELECT movie_id FROM movies_genres WHERE genre_id = ANY(S) GROUP BY
movie_id HAVING COUNT(DISTINCT genre_id) = |S|`: the `HAVING` count for a
movie is the number of distinct matching genre ids. -/
def distinctMatchingGenres (table : List (Int × Int)) (S : List Int)
    (m : Int) : List Int :=
  ((table.filter (fun r => decide (r.1 = m ∧ r.2 ∈ S))).map Prod.snd).dedup

/-- A movie `m` satisfies the fragment of `AddGenreFilter S` against a
`movies_genres` table iff its distinct matching-association count equals the
bound count argument `S.length`. -/
def movieMatchesGenreCond (table : List (Int × Int)) (S : List Int)
    (m : Int) : Prop :=
  (distinctMatchingGenres table S m).length = S.length

theorem mem_distinctMatchingGenres (table : List (Int × Int)) (S : List Int)
    (m g : Int) :
    g ∈ distinctMatchingGenres table S m ↔ ((m, g) ∈ table ∧ g ∈ S) := by
  unfold distinctMatchingGenres
  rw [List.mem_dedup]
  simp only [List.mem_map, List.mem_filter, decide_eq_true_eq]
  constructor
  · rintro ⟨⟨a, b⟩, ⟨hrt, h1, h2⟩, hg⟩
    simp only at hg h1
    subst hg
    subst h1
    exact ⟨hrt, h2⟩
  · intro hmg
    exact ⟨(m, g), ⟨hmg.1, rfl, hmg.2⟩, rfl⟩

/-- Claim C6. For every non-empty (duplicate-free) genre id set `S`,
`AddGenreFilter` appends exactly one fragment and exactly two arguments —
the array `S` followed by the count `S.length` — advancing the counter by
two; and the appended fragment's count-matching condition admits a movie iff
the movie is associated with every element of `S` (set containment), so for
`|S| > 1` a movie associated with only some of `S` is excluded. -/
theorem addGenreFilter_spec (qb : FiltersPkg.QueryBuilder) (S : List Int)
    (table : List (Int × Int)) (m : Int) (hS : S ≠ []) (hnd : S.Nodup) :
    FiltersPkg.AddGenreFilter qb S =
        ⟨qb.conditions ++ [genreFragment (qb.argCount + 1) (qb.argCount + 2)],
          qb.args ++ [Arg.intArray S, Arg.int S.length], qb.argCount + 2⟩ ∧
      (movieMatchesGenreCond table S m ↔ ∀ g ∈ S, (m, g) ∈ table) ∧
      (1 < S.length → (∃ g ∈ S, (m, g) ∉ table) →
        ¬ movieMatchesGenreCond table S m) := by
  have hlen : ¬ S.length = 0 := fun h => hS (List.length_eq_zero.mp h)
  have hiff : movieMatchesGenreCond table S m ↔ ∀ g ∈ S, (m, g) ∈ table := by
    have hndL : (distinctMatchingGenres table S m).Nodup := List.nodup_dedup _
    constructor
    · intro h g hg
      have hsub : (distinctMatchingGenres table S m).toFinset ⊆ S.toFinset := by
        intro x hx
        rw [List.mem_toFinset] at *
        exact ((mem_distinctMatchingGenres table S m x).mp hx).2
      have hcard1 : (distinctMatchingGenres table S m).toFinset.card = S.length := by
        rw [List.toFinset_card_of_nodup hndL]
        exact h
      have hcard2 : S.toFinset.card = S.length :=
        List.toFinset_card_of_nodup hnd
      have heq := Finset.eq_of_subset_of_card_le hsub (by omega)
      have hgm : g ∈ (distinctMatchingGenres table S m).toFinset := by
        rw [heq]
        exact List.mem_toFinset.mpr hg
      exact ((mem_distinctMatchingGenres table S m g).mp
        (List.mem_toFinset.mp hgm)).1
    · intro h
      have hset : (distinctMatchingGenres table S m).toFinset = S.toFinset := by
        apply Finset.Subset.antisymm
        · intro x hx
          rw [List.mem_toFinset] at *
          exact ((mem_distinctMatchingGenres table S m x).mp hx).2
        · intro x hx
          rw [List.mem_toFinset] at *
          exact (mem_distinctMatchingGenres table S m x).mpr ⟨h x hx, hx⟩
      show (distinctMatchingGenres table S m).length = S.length
      rw [← List.toFinset_card_of_nodup hndL, hset,
        List.toFinset_card_of_nodup hnd]
  refine ⟨?_, hiff, ?_⟩
  · unfold FiltersPkg.AddGenreFilter
    rw [if_neg hlen]
  · intro _ hmiss hcond
    rcases hmiss with ⟨g, hgS, hgn⟩
    exact hgn (hiff.mp hcond g hgS)

/-- Witness for C6: requesting genres `{1, 2}` excludes movie `5`, which is
associated with genre `1` only, and the builder binds the array and count. -/
theorem addGenreFilter_spec_witness :
    FiltersPkg.AddGenreFilter FiltersPkg.NewQueryBuilder [1, 2] =
        ⟨[genreFragment 1 2], [Arg.intArray [1, 2], Arg.int 2], 2⟩ ∧
      ¬ movieMatchesGenreCond [(5, 1)] [1, 2] 5 := by
  have h := addGenreFilter_spec FiltersPkg.NewQueryBuilder [1, 2] [(5, 1)] 5
    (by decide) (by decide)
  constructor
  · rw [h.1]
    rfl
  · exact h.2.2 (by decide) (by decide)

/-! ### Claim C7: placeholder/argument correspondence

A `MovieOp` is one `add_*`/`With*` call on the movie query builder; a list
of them is an arbitrary call sequence. The `op*`/`ops*` functions below
compute, straight from the call sequence and the running placeholder
counter, what the builder is expected to accumulate: condition fragments,
arguments, `(placeholder index, argument)` binding pairs, and per-fragment
placeholder occurrence lists. -/

/-- One builder call of `internal/filters/movies.go`. -/
inductive MovieOp where
  | title (t : String)
  | genres (g : List Int)
  | yearRange (minY maxY : Int)
  | runtimeRange (minR maxR : Int)
  | withTitle (t : String)
  | withGenres (g : List Int)

/-- Run one call on the builder. -/
def applyMovieOp (qb : FiltersPkg.QueryBuilder) : MovieOp → FiltersPkg.QueryBuilder
  | .title t => FiltersPkg.AddTitleFilter qb t
  | .genres g => FiltersPkg.AddGenreFilter qb g
  | .yearRange a b => FiltersPkg.AddYearRangeFilter qb a b
  | .runtimeRange a b => FiltersPkg.AddRuntimeRangeFilter qb a b
  | .withTitle t => FiltersPkg.WithTitle qb t
  | .withGenres g => FiltersPkg.WithGenres qb g

/-- Run a call sequence on the builder. -/
def applyMovieOps (qb : FiltersPkg.QueryBuilder) (ops : List MovieOp) :
    FiltersPkg.QueryBuilder :=
  ops.foldl applyMovieOp qb

/-- Arguments one call appends. -/
def opArgs : MovieOp → List Arg
  | .title t => [Arg.str t]
  | .genres g => if g.length = 0 then [] else [Arg.intArray g, Arg.int g.length]
  | .yearRange a b =>
    (if a > 0 then [Arg.int a] else []) ++ (if b > 0 then [Arg.int b] else [])
  | .runtimeRange a b =>
    (if a > 0 then [Arg.int a] else []) ++ (if b > 0 then [Arg.int b] else [])
  | .withTitle t => if t = "" then [] else [Arg.str t]
  | .withGenres g => if g.length = 0 then [] else [Arg.intArray g, Arg.int g.length]

/-- Counter value after one call starting from `c`. -/
def opCount (c : Nat) (op : MovieOp) : Nat :=
  c + (opArgs op).length

/-- Condition fragments one call appends, with the counter at `c`. -/
def opConds (c : Nat) : MovieOp → List String
  | .title _ => [titleFragment (c + 1)]
  | .genres g => if g.length = 0 then [] else [genreFragment (c + 1) (c + 2)]
  | .yearRange a b =>
    (if a > 0 then ["m.year >= $" ++ natRepr (c + 1)] else []) ++
      (if b > 0 then
        ["m.year <= $" ++ natRepr ((if a > 0 then c + 1 else c) + 1)] else [])
  | .runtimeRange a b =>
    (if a > 0 then ["m.runtime >= $" ++ natRepr (c + 1)] else []) ++
      (if b > 0 then
        ["m.runtime <= $" ++ natRepr ((if a > 0 then c + 1 else c) + 1)] else [])
  | .withTitle t => if t = "" then [] else [titleFragment (c + 1)]
  | .withGenres g => if g.length = 0 then [] else [genreFragment (c + 1) (c + 2)]

/-- Per-fragment placeholder occurrence lists of one call (the title
fragment uses its placeholder twice; the genre fragment uses two). -/
def opPhss (c : Nat) : MovieOp → List (List Nat)
  | .title _ => [[c + 1, c + 1]]
  | .genres g => if g.length = 0 then [] else [[c + 1, c + 2]]
  | .yearRange a b =>
    (if a > 0 then [[c + 1]] else []) ++
      (if b > 0 then [[(if a > 0 then c + 1 else c) + 1]] else [])
  | .runtimeRange a b =>
    (if a > 0 then [[c + 1]] else []) ++
      (if b > 0 then [[(if a > 0 then c + 1 else c) + 1]] else [])
  | .withTitle t => if t = "" then [] else [[c + 1, c + 1]]
  | .withGenres g => if g.length = 0 then [] else [[c + 1, c + 2]]

/-- Binding pairs of one call: which placeholder index each appended
argument is meant for. -/
def opBnds (c : Nat) : MovieOp → List (Nat × Arg)
  | .title t => [(c + 1, Arg.str t)]
  | .genres g =>
    if g.length = 0 then []
    else [(c + 1, Arg.intArray g), (c + 2, Arg.int g.length)]
  | .yearRange a b =>
    (if a > 0 then [(c + 1, Arg.int a)] else []) ++
      (if b > 0 then [((if a > 0 then c + 1 else c) + 1, Arg.int b)] else [])
  | .runtimeRange a b =>
    (if a > 0 then [(c + 1, Arg.int a)] else []) ++
      (if b > 0 then [((if a > 0 then c + 1 else c) + 1, Arg.int b)] else [])
  | .withTitle t => if t = "" then [] else [(c + 1, Arg.str t)]
  | .withGenres g =>
    if g.length = 0 then []
    else [(c + 1, Arg.intArray g), (c + 2, Arg.int g.length)]

/-- Arguments a whole call sequence appends. -/
def opsArgs : List MovieOp → List Arg
  | [] => []
  | op :: rest => opArgs op ++ opsArgs rest

/-- Counter value after a whole call sequence. -/
def opsCount (c : Nat) : List MovieOp → Nat
  | [] => c
  | op :: rest => opsCount (opCount c op) rest

/-- Condition fragments a whole call sequence appends. -/
def opsConds (c : Nat) : List MovieOp → List String
  | [] => []
  | op :: rest => opConds c op ++ opsConds (opCount c op) rest

/-- Per-fragment placeholder lists of a whole call sequence. -/
def opsPhss (c : Nat) : List MovieOp → List (List Nat)
  | [] => []
  | op :: rest => opPhss c op ++ opsPhss (opCount c op) rest

/-- Binding pairs of a whole call sequence. -/
def opsBnds (c : Nat) : List MovieOp → List (Nat × Arg)
  | [] => []
  | op :: rest => opBnds c op ++ opsBnds (opCount c op) rest

theorem applyMovieOp_spec (qb : FiltersPkg.QueryBuilder) (op : MovieOp) :
    (applyMovieOp qb op).conditions = qb.conditions ++ opConds qb.argCount op ∧
      (applyMovieOp qb op).args = qb.args ++ opArgs op ∧
      (applyMovieOp qb op).argCount = opCount qb.argCount op := by
  cases op with
  | title t =>
    refine ⟨rfl, rfl, ?_⟩
    simp [opCount, opArgs, applyMovieOp, FiltersPkg.AddTitleFilter]
  | genres g =>
    by_cases hg : g.length = 0
    · refine ⟨?_, ?_, ?_⟩ <;>
        simp [applyMovieOp, FiltersPkg.AddGenreFilter, opConds, opArgs, opCount, hg]
    · refine ⟨?_, ?_, ?_⟩ <;>
        simp [applyMovieOp, FiltersPkg.AddGenreFilter, opConds, opArgs, opCount, hg]
  | yearRange a b =>
    by_cases ha : a > 0 <;> by_cases hb : b > 0 <;>
      refine ⟨?_, ?_, ?_⟩ <;>
      simp [applyMovieOp, FiltersPkg.AddYearRangeFilter, opConds, opArgs, opCount,
        ha, hb]
  | runtimeRange a b =>
    by_cases ha : a > 0 <;> by_cases hb : b > 0 <;>
      refine ⟨?_, ?_, ?_⟩ <;>
      simp [applyMovieOp, FiltersPkg.AddRuntimeRangeFilter, opConds, opArgs, opCount,
        ha, hb]
  | withTitle t =>
    by_cases ht : t = "" <;>
      refine ⟨?_, ?_, ?_⟩ <;>
      simp [applyMovieOp, FiltersPkg.WithTitle, FiltersPkg.AddTitleFilter, opConds,
        opArgs, opCount, ht]
  | withGenres g =>
    by_cases hg : g.length = 0
    · refine ⟨?_, ?_, ?_⟩ <;>
        simp [applyMovieOp, FiltersPkg.WithGenres, FiltersPkg.AddGenreFilter,
          opConds, opArgs, opCount, hg]
    · have hg' : 0 < g.length := Nat.pos_of_ne_zero hg
      refine ⟨?_, ?_, ?_⟩ <;>
        simp [applyMovieOp, FiltersPkg.WithGenres, FiltersPkg.AddGenreFilter,
          opConds, opArgs, opCount, hg, hg']

/-! #### Placeholder extraction lemmas for the emitted fragments -/

/-- A condition string `s` scans to the placeholder list `ns` in any
context whose continuation does not start with a digit. -/
def CondOk (s : String) (ns : List Nat) : Prop :=
  ∀ rest, digitStart rest = false → phScan (s.data ++ rest) = ns ++ phScan rest

theorem phScan_dollarNum (k : Nat) (r : List Char)
    (hr : digitStart r = false) :
    phScan ('$' :: ((natRepr k).data ++ r)) = k :: phScan r := by
  have h := phScan_dollar (natDigits k) r (mem_natDigits_isDigit k)
    (natDigits_ne_nil k) hr
  rw [digitsToNat_natDigits] at h
  exact h

theorem digitStart_append (l r : List Char) (h : l ≠ []) :
    digitStart (l ++ r) = digitStart l := by
  cases l with
  | nil => exact absurd rfl h
  | cons c t => rfl

/-- Fragments of the shape `lit$<num>` (the four range filters). -/
theorem condOk_litNum (lit lit₀ : String) (k : Nat)
    (hsplit : lit.data = lit₀.data ++ ['$']) (h0 : '$' ∉ lit₀.data) :
    CondOk (lit ++ natRepr k) [k] := by
  intro rest hrest
  rw [String.data_append, hsplit]
  simp only [List.append_assoc, List.singleton_append, List.cons_append, List.nil_append]
  rw [phScan_append_noDollar _ _ h0, phScan_dollarNum k _ hrest]

/-- Fragments of the shape `litA$<num>litB$<num>litC` (title and genre). -/
theorem condOk_two (litA litA₀ litB litB₀ litC : String) (a b : Nat)
    (hA : litA.data = litA₀.data ++ ['$']) (hA0 : '$' ∉ litA₀.data)
    (hB : litB.data = litB₀.data ++ ['$']) (hB0 : '$' ∉ litB₀.data)
    (hBne : litB₀.data ≠ []) (hBd : digitStart litB₀.data = false)
    (hC0 : '$' ∉ litC.data) (hCne : litC.data ≠ [])
    (hCd : digitStart litC.data = false) :
    CondOk (litA ++ natRepr a ++ litB ++ natRepr b ++ litC) [a, b] := by
  intro rest hrest
  rw [String.data_append, String.data_append, String.data_append,
    String.data_append, hA, hB]
  simp only [List.append_assoc, List.singleton_append, List.cons_append, List.nil_append]
  rw [phScan_append_noDollar _ _ hA0,
    phScan_dollarNum a _ (by rw [digitStart_append _ _ hBne]; exact hBd),
    phScan_append_noDollar _ _ hB0,
    phScan_dollarNum b _ (by rw [digitStart_append _ _ hCne]; exact hCd),
    phScan_append_noDollar _ _ hC0]

theorem condOk_title (n : Nat) : CondOk (titleFragment n) [n, n] := by
  unfold titleFragment
  exact condOk_two _ "(to_tsvector('simple', m.title) @@ plainto_tsquery('simple', "
    _ ") OR " _ n n (by decide) (by decide) (by decide) (by decide) (by decide)
    (by decide) (by decide) (by decide) (by decide)

theorem condOk_genre (a b : Nat) : CondOk (genreFragment a b) [a, b] := by
  unfold genreFragment
  exact condOk_two _
    "\n\t\tm.id IN (\n\t\t\tSELECT movie_id FROM movies_genres\n\t\t\tWHERE genre_id = ANY("
    _ ")\n\t\t\tGROUP BY movie_id\n\t\t\tHAVING COUNT(DISTINCT genre_id) = " _ a b
    (by decide) (by decide) (by decide) (by decide) (by decide) (by decide)
    (by decide) (by decide) (by decide)

/-- The four arithmetic comparison fragments. -/
theorem condOk_yearMin (k : Nat) : CondOk ("m.year >= $" ++ natRepr k) [k] :=
  condOk_litNum _ "m.year >= " k (by decide) (by decide)

theorem condOk_yearMax (k : Nat) : CondOk ("m.year <= $" ++ natRepr k) [k] :=
  condOk_litNum _ "m.year <= " k (by decide) (by decide)

theorem condOk_runtimeMin (k : Nat) :
    CondOk ("m.runtime >= $" ++ natRepr k) [k] :=
  condOk_litNum _ "m.runtime >= " k (by decide) (by decide)

theorem condOk_runtimeMax (k : Nat) :
    CondOk ("m.runtime <= $" ++ natRepr k) [k] :=
  condOk_litNum _ "m.runtime <= " k (by decide) (by decide)

/-- Joining fragments with `" AND "` concatenates their placeholder
lists. -/
theorem condOk_joinAnd : ∀ (conds : List String) (nss : List (List Nat)),
    List.Forall₂ CondOk conds nss → CondOk (joinAnd conds) nss.flatten := by
  intro conds nss h
  induction h with
  | nil =>
    intro rest hrest
    simp [joinAnd]
  | cons hcd htail ih =>
    rename_i a b l₁ l₂
    cases l₁ with
    | nil =>
      cases htail
      intro rest hrest
      simpa using hcd rest hrest
    | cons a2 l₁t =>
      intro rest hrest
      have hne : joinAnd (a :: a2 :: l₁t) = a ++ " AND " ++ joinAnd (a2 :: l₁t) :=
        rfl
      rw [hne, String.data_append, String.data_append]
      simp only [List.append_assoc]
      rw [hcd _ (by rw [digitStart_append _ _ (by decide)]; rfl),
        phScan_append_noDollar _ _ (by decide), ih _ hrest]
      simp

theorem opPhss_condOk (c : Nat) (op : MovieOp) :
    List.Forall₂ CondOk (opConds c op) (opPhss c op) := by
  cases op with
  | title t =>
    exact List.Forall₂.cons (condOk_title (c + 1)) List.Forall₂.nil
  | genres g =>
    by_cases hg : g.length = 0
    · simp only [opConds, opPhss, if_pos hg]
      exact List.Forall₂.nil
    · simp only [opConds, opPhss, if_neg hg]
      exact List.Forall₂.cons (condOk_genre _ _) List.Forall₂.nil
  | yearRange a b =>
    by_cases ha : a > 0 <;> by_cases hb : b > 0 <;>
      simp only [opConds, opPhss, if_pos, if_neg, ha, hb, if_true, if_false,
        List.singleton_append, List.nil_append, List.append_nil]
    · exact List.Forall₂.cons (condOk_yearMin _)
        (List.Forall₂.cons (condOk_yearMax _) List.Forall₂.nil)
    · exact List.Forall₂.cons (condOk_yearMin _) List.Forall₂.nil
    · exact List.Forall₂.cons (condOk_yearMax _) List.Forall₂.nil
    · exact List.Forall₂.nil
  | runtimeRange a b =>
    by_cases ha : a > 0 <;> by_cases hb : b > 0 <;>
      simp only [opConds, opPhss, if_pos, if_neg, ha, hb, if_true, if_false,
        List.singleton_append, List.nil_append, List.append_nil]
    · exact List.Forall₂.cons (condOk_runtimeMin _)
        (List.Forall₂.cons (condOk_runtimeMax _) List.Forall₂.nil)
    · exact List.Forall₂.cons (condOk_runtimeMin _) List.Forall₂.nil
    · exact List.Forall₂.cons (condOk_runtimeMax _) List.Forall₂.nil
    · exact List.Forall₂.nil
  | withTitle t =>
    by_cases ht : t = ""
    · simp only [opConds, opPhss, if_pos ht]
      exact List.Forall₂.nil
    · simp only [opConds, opPhss, if_neg ht]
      exact List.Forall₂.cons (condOk_title (c + 1)) List.Forall₂.nil
  | withGenres g =>
    by_cases hg : g.length = 0
    · simp only [opConds, opPhss, if_pos hg]
      exact List.Forall₂.nil
    · simp only [opConds, opPhss, if_neg hg]
      exact List.Forall₂.cons (condOk_genre _ _) List.Forall₂.nil

theorem applyMovieOps_spec (ops : List MovieOp) :
    ∀ qb : FiltersPkg.QueryBuilder,
      (applyMovieOps qb ops).conditions = qb.conditions ++ opsConds qb.argCount ops ∧
        (applyMovieOps qb ops).args = qb.args ++ opsArgs ops ∧
        (applyMovieOps qb ops).argCount = opsCount qb.argCount ops := by
  induction ops with
  | nil =>
    intro qb
    refine ⟨by simp [applyMovieOps, opsConds], by simp [applyMovieOps, opsArgs],
      by simp [applyMovieOps, opsCount]⟩
  | cons op rest ih =>
    intro qb
    have hstep := applyMovieOp_spec qb op
    have hrest := ih (applyMovieOp qb op)
    have hfold : applyMovieOps qb (op :: rest) =
        applyMovieOps (applyMovieOp qb op) rest := rfl
    refine ⟨?_, ?_, ?_⟩
    · rw [hfold, hrest.1, hstep.1, hstep.2.2]
      simp [opsConds, List.append_assoc]
    · rw [hfold, hrest.2.1, hstep.2.1]
      simp [opsArgs, List.append_assoc]
    · rw [hfold, hrest.2.2, hstep.2.2]
      simp [opsCount]

theorem opsPhss_condOk (ops : List MovieOp) : ∀ c : Nat,
    List.Forall₂ CondOk (opsConds c ops) (opsPhss c ops) := by
  induction ops with
  | nil =>
    intro c
    exact List.Forall₂.nil
  | cons op rest ih =>
    intro c
    exact List.rel_append (opPhss_condOk c op) (ih (opCount c op))

theorem get?_append_exact (pre post : List Arg) (j : Nat) (a : Arg)
    (h : post.get? j = some a) :
    (pre ++ post).get? (pre.length + j) = some a := by
  induction pre with
  | nil => simpa using h
  | cons x xs ih =>
    have h2 : (x :: xs).length + j = (xs.length + j) + 1 := by
      simp [List.length_cons]
      omega
    rw [h2, List.cons_append, List.get?_cons_succ]
    exact ih

theorem opBnds_get (c : Nat) (op : MovieOp) (pre : List Arg)
    (hc : c = pre.length) :
    ∀ nv ∈ opBnds c op, ∀ post : List Arg,
      (pre ++ (opArgs op ++ post)).get? (nv.1 - 1) = some nv.2 := by
  have base0 : ∀ (x : Arg) (rest2 : List Arg),
      (pre ++ (x :: rest2)).get? (c + 1 - 1) = some x := by
    intro x rest2
    have h2 : c + 1 - 1 = pre.length + 0 := by omega
    rw [h2]
    exact get?_append_exact pre (x :: rest2) 0 x rfl
  have base1 : ∀ (x y : Arg) (rest2 : List Arg),
      (pre ++ (x :: y :: rest2)).get? (c + 2 - 1) = some y := by
    intro x y rest2
    have h2 : c + 2 - 1 = pre.length + 1 := by omega
    rw [h2]
    exact get?_append_exact pre (x :: y :: rest2) 1 y rfl
  have two : ∀ (p q : Arg) (post : List Arg) (nv : Nat × Arg),
      (nv = (c + 1, p) ∨ nv = (c + 2, q)) →
      (pre ++ ((p :: q :: []) ++ post)).get? (nv.1 - 1) = some nv.2 := by
    rintro p q post nv (rfl | rfl)
    · exact base0 _ _
    · exact base1 _ _ _
  have one : ∀ (p : Arg) (post : List Arg) (nv : Nat × Arg),
      nv = (c + 1, p) →
      (pre ++ ((p :: []) ++ post)).get? (nv.1 - 1) = some nv.2 := by
    rintro p post nv rfl
    exact base0 _ _
  cases op with
  | title t =>
    intro nv hnv post
    exact one _ post nv (List.mem_singleton.mp hnv)
  | genres g =>
    intro nv hnv post
    by_cases hg : g.length = 0
    · rw [opBnds, if_pos hg] at hnv
      exact absurd hnv (List.not_mem_nil nv)
    · rw [opBnds, if_neg hg] at hnv
      rw [show opArgs (MovieOp.genres g) =
        Arg.intArray g :: Arg.int g.length :: [] from by
          rw [opArgs, if_neg hg]]
      refine two _ _ post nv ?_
      simpa using hnv
  | yearRange a b =>
    intro nv hnv post
    rw [opBnds] at hnv
    rw [show opArgs (MovieOp.yearRange a b) =
      (if a > 0 then [Arg.int a] else []) ++ (if b > 0 then [Arg.int b] else [])
      from rfl]
    by_cases ha : a > 0 <;> by_cases hb : b > 0
    · simp only [if_pos ha, if_pos hb, List.singleton_append, List.nil_append,
        List.append_nil, List.cons_append] at hnv ⊢
      refine two _ _ post nv ?_
      simpa using hnv
    · simp only [if_pos ha, if_neg hb, List.singleton_append, List.nil_append,
        List.append_nil, List.cons_append] at hnv ⊢
      exact one _ post nv (List.mem_singleton.mp hnv)
    · simp only [if_neg ha, if_pos hb, List.singleton_append, List.nil_append,
        List.append_nil, List.cons_append] at hnv ⊢
      exact one _ post nv (List.mem_singleton.mp hnv)
    · rw [if_neg ha, if_neg hb] at hnv
      simp at hnv
  | runtimeRange a b =>
    intro nv hnv post
    rw [opBnds] at hnv
    rw [show opArgs (MovieOp.runtimeRange a b) =
      (if a > 0 then [Arg.int a] else []) ++ (if b > 0 then [Arg.int b] else [])
      from rfl]
    by_cases ha : a > 0 <;> by_cases hb : b > 0
    · simp only [if_pos ha, if_pos hb, List.singleton_append, List.nil_append,
        List.append_nil, List.cons_append] at hnv ⊢
      refine two _ _ post nv ?_
      simpa using hnv
    · simp only [if_pos ha, if_neg hb, List.singleton_append, List.nil_append,
        List.append_nil, List.cons_append] at hnv ⊢
      exact one _ post nv (List.mem_singleton.mp hnv)
    · simp only [if_neg ha, if_pos hb, List.singleton_append, List.nil_append,
        List.append_nil, List.cons_append] at hnv ⊢
      exact one _ post nv (List.mem_singleton.mp hnv)
    · rw [if_neg ha, if_neg hb] at hnv
      simp at hnv
  | withTitle t =>
    intro nv hnv post
    by_cases ht : t = ""
    · rw [opBnds, if_pos ht] at hnv
      exact absurd hnv (List.not_mem_nil nv)
    · rw [opBnds, if_neg ht] at hnv
      rw [show opArgs (MovieOp.withTitle t) = Arg.str t :: [] from by
        rw [opArgs, if_neg ht]]
      exact one _ post nv (List.mem_singleton.mp hnv)
  | withGenres g =>
    intro nv hnv post
    by_cases hg : g.length = 0
    · rw [opBnds, if_pos hg] at hnv
      exact absurd hnv (List.not_mem_nil nv)
    · rw [opBnds, if_neg hg] at hnv
      rw [show opArgs (MovieOp.withGenres g) =
        Arg.intArray g :: Arg.int g.length :: [] from by
          rw [opArgs, if_neg hg]]
      refine two _ _ post nv ?_
      simpa using hnv

theorem opsBnds_get (ops : List MovieOp) : ∀ (c : Nat) (pre : List Arg),
    c = pre.length → ∀ nv ∈ opsBnds c ops, ∀ post : List Arg,
      (pre ++ (opsArgs ops ++ post)).get? (nv.1 - 1) = some nv.2 := by
  induction ops with
  | nil =>
    intro c pre hc nv hnv
    exact absurd hnv (List.not_mem_nil nv)
  | cons op rest ih =>
    intro c pre hc nv hnv post
    have hsplit : opsBnds c (op :: rest) =
        opBnds c op ++ opsBnds (opCount c op) rest := rfl
    rw [hsplit] at hnv
    have hargs : opsArgs (op :: rest) = opArgs op ++ opsArgs rest := rfl
    rw [hargs]
    rcases List.mem_append.mp hnv with h | h
    · have := opBnds_get c op pre hc nv h (opsArgs rest ++ post)
      simpa [List.append_assoc] using this
    · have hlen : opCount c op = (pre ++ opArgs op).length := by
        simp [opCount, List.length_append, hc]
      have := ih (opCount c op) (pre ++ opArgs op) hlen nv h post
      simpa [List.append_assoc] using this

theorem opCount_le (c : Nat) (op : MovieOp) : c ≤ opCount c op :=
  Nat.le_add_right c (opArgs op).length

theorem opsCount_le (ops : List MovieOp) : ∀ c : Nat, c ≤ opsCount c ops := by
  induction ops with
  | nil => intro c; exact Nat.le_refl c
  | cons op rest ih =>
    intro c
    exact le_trans (opCount_le c op) (ih (opCount c op))

theorem opBnds_bounds (c : Nat) (op : MovieOp) :
    ∀ nv ∈ opBnds c op, c + 1 ≤ nv.1 ∧ nv.1 ≤ opCount c op := by
  cases op with
  | title t =>
    intro nv hnv
    rw [List.mem_singleton.mp hnv]
    simp [opCount, opArgs]
  | genres g =>
    intro nv hnv
    by_cases hg : g.length = 0
    · rw [opBnds, if_pos hg] at hnv
      exact absurd hnv (List.not_mem_nil nv)
    · rw [opBnds, if_neg hg] at hnv
      have hg2 : ¬ g = [] := fun he => hg (by rw [he]; rfl)
      have hcnt : opCount c (MovieOp.genres g) = c + 2 := by
        simp [opCount, opArgs, hg, hg2]
      rcases List.mem_cons.mp hnv with rfl | h
      · simp [hcnt]
      · rw [List.mem_singleton.mp h]
        simp [hcnt]
  | yearRange a b =>
    intro nv hnv
    rw [opBnds] at hnv
    have hcnt : opCount c (MovieOp.yearRange a b) =
        c + ((if a > 0 then [Arg.int a] else []) ++
          (if b > 0 then [Arg.int b] else [])).length := rfl
    by_cases ha : a > 0 <;> by_cases hb : b > 0
    · simp only [if_pos ha, if_pos hb, List.singleton_append, List.cons_append,
        List.nil_append] at hnv
      rcases List.mem_cons.mp hnv with rfl | h
      · simp [hcnt, if_pos ha, if_pos hb]
      · rw [List.mem_singleton.mp h]
        simp [hcnt, if_pos ha, if_pos hb]
    · simp only [if_pos ha, if_neg hb, List.append_nil] at hnv
      rw [List.mem_singleton.mp hnv]
      simp [hcnt, if_pos ha, if_neg hb]
    · simp only [if_neg ha, if_pos hb, List.nil_append] at hnv
      rw [List.mem_singleton.mp hnv]
      simp [hcnt, if_neg ha, if_pos hb]
    · rw [if_neg ha, if_neg hb] at hnv
      simp at hnv
  | runtimeRange a b =>
    intro nv hnv
    rw [opBnds] at hnv
    have hcnt : opCount c (MovieOp.runtimeRange a b) =
        c + ((if a > 0 then [Arg.int a] else []) ++
          (if b > 0 then [Arg.int b] else [])).length := rfl
    by_cases ha : a > 0 <;> by_cases hb : b > 0
    · simp only [if_pos ha, if_pos hb, List.singleton_append, List.cons_append,
        List.nil_append] at hnv
      rcases List.mem_cons.mp hnv with rfl | h
      · simp [hcnt, if_pos ha, if_pos hb]
      · rw [List.mem_singleton.mp h]
        simp [hcnt, if_pos ha, if_pos hb]
    · simp only [if_pos ha, if_neg hb, List.append_nil] at hnv
      rw [List.mem_singleton.mp hnv]
      simp [hcnt, if_pos ha, if_neg hb]
    · simp only [if_neg ha, if_pos hb, List.nil_append] at hnv
      rw [List.mem_singleton.mp hnv]
      simp [hcnt, if_neg ha, if_pos hb]
    · rw [if_neg ha, if_neg hb] at hnv
      simp at hnv
  | withTitle t =>
    intro nv hnv
    by_cases ht : t = ""
    · rw [opBnds, if_pos ht] at hnv
      exact absurd hnv (List.not_mem_nil nv)
    · rw [opBnds, if_neg ht] at hnv
      rw [List.mem_singleton.mp hnv]
      simp [opCount, opArgs, if_neg ht]
  | withGenres g =>
    intro nv hnv
    by_cases hg : g.length = 0
    · rw [opBnds, if_pos hg] at hnv
      exact absurd hnv (List.not_mem_nil nv)
    · rw [opBnds, if_neg hg] at hnv
      have hg2 : ¬ g = [] := fun he => hg (by rw [he]; rfl)
      have hcnt : opCount c (MovieOp.withGenres g) = c + 2 := by
        simp [opCount, opArgs, hg, hg2]
      rcases List.mem_cons.mp hnv with rfl | h
      · simp [hcnt]
      · rw [List.mem_singleton.mp h]
        simp [hcnt]

theorem opsBnds_bounds (ops : List MovieOp) : ∀ c : Nat,
    ∀ nv ∈ opsBnds c ops, c + 1 ≤ nv.1 ∧ nv.1 ≤ opsCount c ops := by
  induction ops with
  | nil =>
    intro c nv hnv
    exact absurd hnv (List.not_mem_nil nv)
  | cons op rest ih =>
    intro c nv hnv
    have hsplit : opsBnds c (op :: rest) =
        opBnds c op ++ opsBnds (opCount c op) rest := rfl
    rw [hsplit] at hnv
    have hcnt : opsCount c (op :: rest) = opsCount (opCount c op) rest := rfl
    rw [hcnt]
    rcases List.mem_append.mp hnv with h | h
    · have hb := opBnds_bounds c op nv h
      exact ⟨hb.1, le_trans hb.2 (opsCount_le rest (opCount c op))⟩
    · have hb := ih (opCount c op) nv h
      exact ⟨le_trans (Nat.add_le_add_right (opCount_le c op) 1) hb.1, hb.2⟩

theorem opPhss_mem_bnds (c : Nat) (op : MovieOp) :
    ∀ n ∈ (opPhss c op).flatten, n ∈ (opBnds c op).map Prod.fst := by
  cases op with
  | title t =>
    intro n hn
    simp [opPhss] at hn
    simp [opBnds, hn]
  | genres g =>
    intro n hn
    by_cases hg : g.length = 0
    · rw [opPhss, if_pos hg] at hn
      simp at hn
    · rw [opPhss, if_neg hg] at hn
      rw [opBnds, if_neg hg]
      simp at hn
      rcases hn with rfl | rfl <;> simp
  | yearRange a b =>
    intro n hn
    rw [opPhss] at hn
    rw [opBnds]
    by_cases ha : a > 0 <;> by_cases hb : b > 0
    · simp only [if_pos ha, if_pos hb] at hn ⊢
      simp at hn ⊢
      rcases hn with rfl | rfl
      · left
        rfl
      · right
        rfl
    · simp only [if_pos ha, if_neg hb, List.append_nil] at hn ⊢
      simp at hn ⊢
      exact hn
    · simp only [if_neg ha, if_pos hb, List.nil_append] at hn ⊢
      simp at hn ⊢
      exact hn
    · simp only [if_neg ha, if_neg hb] at hn
      simp at hn
  | runtimeRange a b =>
    intro n hn
    rw [opPhss] at hn
    rw [opBnds]
    by_cases ha : a > 0 <;> by_cases hb : b > 0
    · simp only [if_pos ha, if_pos hb] at hn ⊢
      simp at hn ⊢
      rcases hn with rfl | rfl
      · left
        rfl
      · right
        rfl
    · simp only [if_pos ha, if_neg hb, List.append_nil] at hn ⊢
      simp at hn ⊢
      exact hn
    · simp only [if_neg ha, if_pos hb, List.nil_append] at hn ⊢
      simp at hn ⊢
      exact hn
    · simp only [if_neg ha, if_neg hb] at hn
      simp at hn
  | withTitle t =>
    intro n hn
    by_cases ht : t = ""
    · rw [opPhss, if_pos ht] at hn
      simp at hn
    · rw [opPhss, if_neg ht] at hn
      rw [opBnds, if_neg ht]
      simp at hn
      simp [hn]
  | withGenres g =>
    intro n hn
    by_cases hg : g.length = 0
    · rw [opPhss, if_pos hg] at hn
      simp at hn
    · rw [opPhss, if_neg hg] at hn
      rw [opBnds, if_neg hg]
      simp at hn
      rcases hn with rfl | rfl <;> simp

theorem opsPhss_mem_bnds (ops : List MovieOp) : ∀ c : Nat,
    ∀ n ∈ (opsPhss c ops).flatten, n ∈ (opsBnds c ops).map Prod.fst := by
  induction ops with
  | nil =>
    intro c n hn
    simp [opsPhss] at hn
  | cons op rest ih =>
    intro c n hn
    have h1 : opsPhss c (op :: rest) = opPhss c op ++ opsPhss (opCount c op) rest :=
      rfl
    have h2 : opsBnds c (op :: rest) = opBnds c op ++ opsBnds (opCount c op) rest :=
      rfl
    rw [h1, List.flatten_append] at hn
    rw [h2, List.map_append]
    rcases List.mem_append.mp hn with h | h
    · exact List.mem_append.mpr (Or.inl (opPhss_mem_bnds c op n h))
    · exact List.mem_append.mpr (Or.inr (ih (opCount c op) n h))

theorem noDollar_movieColumn (sc : String) :
    '$' ∉ ((FiltersPkg.movieColumnMap sc).getD "m.id").data := by
  unfold FiltersPkg.movieColumnMap
  split_ifs <;> decide

theorem noDollar_sortDirection (p : FiltersPkg.PageFilters) :
    '$' ∉ (FiltersPkg.sortDirection p).data := by
  unfold FiltersPkg.sortDirection
  split <;> decide

theorem phScan_dollarNum_end (k : Nat) :
    phScan ('$' :: (natRepr k).data) = [k] := by
  have h := phScan_dollarNum k [] rfl
  simpa using h

theorem buildMovieQuery_phScan (qb : FiltersPkg.QueryBuilder)
    (f : FiltersPkg.MovieFilters) (q : String) (args : List Arg)
    (nss : List (List Nat))
    (hf : List.Forall₂ CondOk qb.conditions nss)
    (hq : FiltersPkg.BuildMovieQuery qb f = some (q, args)) :
    phScan q.data = nss.flatten ++ [qb.argCount + 1, qb.argCount + 2] ∧
      args = qb.args ++
        [Arg.int (FiltersPkg.limit f.toPageFilters),
         Arg.int (FiltersPkg.offset f.toPageFilters)] := by
  rcases ho : FiltersPkg.sortColumn f.toPageFilters with _ | sc
  · rw [FiltersPkg.BuildMovieQuery, ho] at hq
    simp at hq
  · rw [FiltersPkg.BuildMovieQuery, ho] at hq
    by_cases hcnd : qb.conditions.length > 0
    · simp only [if_pos hcnd, Option.some.injEq, Prod.mk.injEq] at hq
      obtain ⟨hq1, hq2⟩ := hq
      refine ⟨?_, hq2.symm⟩
      rw [← hq1]
      simp only [String.data_append, List.append_assoc]
      rw [phScan_append_noDollar _ _ (by decide)]
      rw [phScan_append_noDollar _ _ (by decide)]
      rw [condOk_joinAnd qb.conditions nss hf _ (by rfl)]
      rw [phScan_append_noDollar _ _ (by decide)]
      rw [phScan_append_noDollar _ _ (noDollar_movieColumn sc)]
      rw [phScan_append_noDollar _ _ (by decide)]
      rw [phScan_append_noDollar _ _ (noDollar_sortDirection f.toPageFilters)]
      rw [(by decide :
        [',', ' ', 'm', '.', 'i', 'd', ' ', 'A', 'S', 'C', '\n', '\t', '\t', 'L', 'I', 'M', 'I', 'T', ' ', '$'] =
        [',', ' ', 'm', '.', 'i', 'd', ' ', 'A', 'S', 'C', '\n', '\t', '\t', 'L', 'I', 'M', 'I', 'T', ' '] ++ ['$'])]
      simp only [List.append_assoc, List.singleton_append]
      rw [phScan_append_noDollar _ _ (by decide)]
      rw [phScan_dollarNum (qb.argCount + 1) _ (by rfl)]
      rw [(by decide :
        [' ', 'O', 'F', 'F', 'S', 'E', 'T', ' ', '$'] =
        [' ', 'O', 'F', 'F', 'S', 'E', 'T', ' '] ++ ['$'])]
      simp only [List.append_assoc, List.singleton_append]
      rw [phScan_append_noDollar _ _ (by decide)]
      rw [phScan_dollarNum_end (qb.argCount + 2)]
    · simp only [if_neg hcnd, Option.some.injEq, Prod.mk.injEq] at hq
      have hc0 : qb.conditions = [] :=
        List.length_eq_zero.mp (Nat.eq_zero_of_not_pos hcnd)
      rw [hc0] at hf
      cases hf
      obtain ⟨hq1, hq2⟩ := hq
      refine ⟨?_, hq2.symm⟩
      rw [← hq1]
      simp only [String.data_append, List.append_assoc,
        (by rfl : ("" : String).data = ([] : List Char)), List.nil_append]
      rw [phScan_append_noDollar _ _ (by decide)]
      rw [phScan_append_noDollar _ _ (by decide)]
      rw [phScan_append_noDollar _ _ (noDollar_movieColumn sc)]
      rw [phScan_append_noDollar _ _ (by decide)]
      rw [phScan_append_noDollar _ _ (noDollar_sortDirection f.toPageFilters)]
      rw [(by decide :
        [',', ' ', 'm', '.', 'i', 'd', ' ', 'A', 'S', 'C', '\n', '\t', '\t', 'L', 'I', 'M', 'I', 'T', ' ', '$'] =
        [',', ' ', 'm', '.', 'i', 'd', ' ', 'A', 'S', 'C', '\n', '\t', '\t', 'L', 'I', 'M', 'I', 'T', ' '] ++ ['$'])]
      simp only [List.append_assoc, List.singleton_append]
      rw [phScan_append_noDollar _ _ (by decide)]
      rw [phScan_dollarNum (qb.argCount + 1) _ (by rfl)]
      rw [(by decide :
        [' ', 'O', 'F', 'F', 'S', 'E', 'T', ' ', '$'] =
        [' ', 'O', 'F', 'F', 'S', 'E', 'T', ' '] ++ ['$'])]
      simp only [List.append_assoc, List.singleton_append]
      rw [phScan_append_noDollar _ _ (by decide)]
      rw [phScan_dollarNum_end (qb.argCount + 2)]
      simp

theorem opsCount_eq (ops : List MovieOp) : ∀ c : Nat,
    opsCount c ops = c + (opsArgs ops).length := by
  induction ops with
  | nil =>
    intro c
    simp [opsCount, opsArgs]
  | cons op rest ih =>
    intro c
    have h1 : opsCount c (op :: rest) = opsCount (opCount c op) rest := rfl
    have h2 : opsArgs (op :: rest) = opArgs op ++ opsArgs rest := rfl
    rw [h1, ih (opCount c op), h2]
    simp [opCount, List.length_append]
    omega

/-- Claim C7. After any sequence of `add_*`/`With*` calls followed by
`BuildMovieQuery`, the produced query text's placeholder occurrences are
exactly the intended per-fragment indices followed by the two trailing
placeholders `argCount+1` and `argCount+2`; every intended binding pair
`(n, v)` satisfies `args[n-1] = v`; the two trailing placeholders are bound
to the last two arguments (limit then offset); every placeholder in the
text is among the intended binding indices; and all fragment placeholder
indices lie within `[1, argCount]` — so fragment order and argument order
never drift. -/
theorem buildMovieQuery_placeholder_spec (ops : List MovieOp)
    (f : FiltersPkg.MovieFilters) (q : String) (args : List Arg)
    (hq : FiltersPkg.BuildMovieQuery
      (applyMovieOps FiltersPkg.NewQueryBuilder ops) f = some (q, args)) :
    phScan q.data =
        (opsPhss 0 ops).flatten ++ [opsCount 0 ops + 1, opsCount 0 ops + 2] ∧
      args.length = opsCount 0 ops + 2 ∧
      (∀ nv ∈ opsBnds 0 ops, args.get? (nv.1 - 1) = some nv.2) ∧
      args.get? (opsCount 0 ops) =
        some (Arg.int (FiltersPkg.limit f.toPageFilters)) ∧
      args.get? (opsCount 0 ops + 1) =
        some (Arg.int (FiltersPkg.offset f.toPageFilters)) ∧
      (∀ n ∈ (opsPhss 0 ops).flatten, n ∈ (opsBnds 0 ops).map Prod.fst) ∧
      (∀ nv ∈ opsBnds 0 ops, 1 ≤ nv.1 ∧ nv.1 ≤ opsCount 0 ops) := by
  have hspec := applyMovieOps_spec ops FiltersPkg.NewQueryBuilder
  have hconds : (applyMovieOps FiltersPkg.NewQueryBuilder ops).conditions =
      opsConds 0 ops := by
    simpa [FiltersPkg.NewQueryBuilder] using hspec.1
  have hargs : (applyMovieOps FiltersPkg.NewQueryBuilder ops).args =
      opsArgs ops := by
    simpa [FiltersPkg.NewQueryBuilder] using hspec.2.1
  have hcount : (applyMovieOps FiltersPkg.NewQueryBuilder ops).argCount =
      opsCount 0 ops := by
    simpa [FiltersPkg.NewQueryBuilder] using hspec.2.2
  have hforall : List.Forall₂ CondOk
      (applyMovieOps FiltersPkg.NewQueryBuilder ops).conditions
      (opsPhss 0 ops) := by
    rw [hconds]
    exact opsPhss_condOk ops 0
  have hmain := buildMovieQuery_phScan _ f q args (opsPhss 0 ops) hforall hq
  rw [hcount, hargs] at hmain
  have hlen : opsCount 0 ops = (opsArgs ops).length := by
    rw [opsCount_eq]
    omega
  refine ⟨hmain.1, ?_, ?_, ?_, ?_, ?_, ?_⟩
  · rw [hmain.2]
    simp [List.length_append, hlen]
  · intro nv hnv
    have h := opsBnds_get ops 0 [] rfl nv hnv
      [Arg.int (FiltersPkg.limit f.toPageFilters),
       Arg.int (FiltersPkg.offset f.toPageFilters)]
    rw [hmain.2]
    simpa using h
  · rw [hmain.2]
    have h2 : opsCount 0 ops = (opsArgs ops).length + 0 := by omega
    rw [h2]
    exact get?_append_exact (opsArgs ops) _ 0 _ rfl
  · rw [hmain.2]
    have h2 : opsCount 0 ops + 1 = (opsArgs ops).length + 1 := by omega
    rw [h2]
    exact get?_append_exact (opsArgs ops) _ 1 _ rfl
  · exact fun n hn => opsPhss_mem_bnds ops 0 n hn
  · intro nv hnv
    exact opsBnds_bounds ops 0 nv hnv

set_option maxRecDepth 16384 in
/-- Witness for C7: title, genre-pair and year-range filters followed by
`BuildMovieQuery` yield placeholders `$1 $1 $2 $3 $4 $5` in the fragments
and `$6 $7` for limit and offset. -/
theorem buildMovieQuery_placeholder_spec_witness :
    phScan (((FiltersPkg.BuildMovieQuery
      (applyMovieOps FiltersPkg.NewQueryBuilder
        [MovieOp.title "dune", MovieOp.genres [1, 2],
         MovieOp.yearRange 1990 2000])
      ⟨⟨1, 20, "id", ["id"]⟩, "", [], 0, 0, 0, 0⟩).getD ("", [])).1.data) =
      [1, 1, 2, 3, 4, 5, 6, 7] := by
  have h := buildMovieQuery_placeholder_spec
    [MovieOp.title "dune", MovieOp.genres [1, 2], MovieOp.yearRange 1990 2000]
    ⟨⟨1, 20, "id", ["id"]⟩, "", [], 0, 0, 0, 0⟩
    (((FiltersPkg.BuildMovieQuery
      (applyMovieOps FiltersPkg.NewQueryBuilder
        [MovieOp.title "dune", MovieOp.genres [1, 2],
         MovieOp.yearRange 1990 2000])
      ⟨⟨1, 20, "id", ["id"]⟩, "", [], 0, 0, 0, 0⟩).getD ("", [])).1)
    (((FiltersPkg.BuildMovieQuery
      (applyMovieOps FiltersPkg.NewQueryBuilder
        [MovieOp.title "dune", MovieOp.genres [1, 2],
         MovieOp.yearRange 1990 2000])
      ⟨⟨1, 20, "id", ["id"]⟩, "", [], 0, 0, 0, 0⟩).getD ("", [])).2)
    (by rfl)
  rw [h.1]
  decide

end Cinemesis
